import Mathlib

/-!
# Verification of the rather3d wireframe viewer core

This file is a shallow embedding of the program in `src/main.rs`: a 3D
wireframe viewer that loads a polygonal mesh from a text file, projects its
vertices through a camera/perspective pipeline, and draws the visible edges.

Modelling conventions:

* `f64` arithmetic is modelled as exact arithmetic.  The mesh-loading and
  screen-mapping code, which uses no transcendental functions, is embedded
  over an arbitrary `LinearOrderedField` (instantiated at `ℚ` for concrete,
  kernel-checkable evaluations and at `ℝ` for the geometric theorems); the
  matrix pipeline, which uses `sin`/`cos`/`tan`, is embedded over `ℝ`.
* A Rust panic (from `unwrap()` on a failed parse, from
  `Vector3::from_iterator` running out of items, from an out-of-bounds or
  underflowing slice index, or from `Point3::from_homogeneous(..).unwrap()`
  on a zero homogeneous coordinate) is modelled by `none`; `some` is the
  value the Rust code produces when it does not panic.
* `nalgebra`'s `Matrix4<f64>` is `Matrix (Fin 4) (Fin 4) ℝ`, `Matrix4 * v`
  is `Matrix.mulVec`, and `Point3::from_homogeneous` returns `none` exactly
  when the 4th component is zero, as in nalgebra.
-/

namespace Rather3d

/-- A 3-component coordinate, modelling `nalgebra::Point3` / `Vector3`. -/
structure V3 (α : Type) where
  x : α
  y : α
  z : α
deriving DecidableEq, Repr

/-- The mesh: vertex positions and faces, as in `struct Object` in the
source (`points: Vec<Point3<f64>>`, `faces: Vec<Vec<usize>>`). -/
structure Object (α : Type) where
  points : List (V3 α)
  faces : List (List ℕ)
deriving DecidableEq, Repr

/-! ## Mesh loading (`Object::read`)

The loader reads the file line by line, splits each line on whitespace and
dispatches on the first token: a line tagged `v` parses three `f64`
coordinates, a line tagged `f` parses a list of `usize` indices, and any
other line is ignored.  Every numeric parse in the source is followed by
`.unwrap()`, so a malformed token aborts the process; the function's
`Result` error type covers only I/O errors (which we do not model, since
the file contents are given directly as a list of lines). -/

/-- Split a character list on whitespace, dropping empty fragments: the
behaviour of Rust's `str::split_whitespace`.  (Structural recursion so the
kernel can evaluate it; the accumulator holds the current token reversed.) -/
def splitWS : List Char → List Char → List (List Char)
  | [], acc => if acc.isEmpty then [] else [acc.reverse]
  | c :: cs, acc =>
    if c.isWhitespace then
      if acc.isEmpty then splitWS cs [] else acc.reverse :: splitWS cs []
    else
      splitWS cs (c :: acc)

/-- The whitespace-separated tokens of a line (`line.split_whitespace()`). -/
def tokenize (s : String) : List String :=
  (splitWS s.data []).map String.mk

/-- Numeric value of a digit string (most significant digit first). -/
def digitsVal (ds : List Char) : ℕ :=
  ds.foldl (fun a c => 10 * a + (c.toNat - '0'.toNat)) 0

/-- Longest digit run at the front of the list, and the remainder. -/
def spanDigits (cs : List Char) : List Char × List Char :=
  cs.span (fun c => c.isDigit)

/-- Exponent suffix of a float literal: an optional sign followed by one or
more digits, consuming the whole remaining input; on success, scales the
mantissa by the corresponding power of ten. -/
def parseExpPart (mant : ℚ) (r : List Char) : Option ℚ :=
  let se :=
    match r with
    | '+' :: r1 => ((1 : ℤ), r1)
    | '-' :: r1 => ((-1 : ℤ), r1)
    | _ => ((1 : ℤ), r)
  let de := spanDigits se.2
  if de.1.isEmpty || !de.2.isEmpty then none
  else some (mant * (10 : ℚ) ^ (se.1 * (digitsVal de.1 : ℤ)))

/-- Rust's `str::parse::<f64>` on one token, modelled over `ℚ`: an optional
sign, then digits with an optional point (at least one digit on one side of
the point), then an optional exponent.  Returns `none` exactly when the
token is not such a literal.  (The non-finite literals `inf`, `infinity`
and `nan`, which have no rational value, are not modelled; mesh coordinate
tokens are finite decimals.) -/
def parseF64? (s : String) : Option ℚ :=
  let sc :=
    match s.data with
    | '+' :: r => ((1 : ℚ), r)
    | '-' :: r => ((-1 : ℚ), r)
    | cs => ((1 : ℚ), cs)
  let ipr := spanDigits sc.2
  let fpr :=
    match ipr.2 with
    | '.' :: r => let q := spanDigits r; (some q.1, q.2)
    | _ => (none, ipr.2)
  let hasDigit : Bool :=
    !ipr.1.isEmpty ||
      (match fpr.1 with
       | some l => !l.isEmpty
       | none => false)
  if hasDigit then
    let mant : ℚ :=
      sc.1 * ((digitsVal ipr.1 : ℚ) +
        (match fpr.1 with
         | some l => (digitsVal l : ℚ) / (10 : ℚ) ^ l.length
         | none => 0))
    match fpr.2 with
    | [] => some mant
    | 'e' :: r => parseExpPart mant r
    | 'E' :: r => parseExpPart mant r
    | _ => none
  else none

/-- Rust's `str::parse::<usize>` on one token: an optional `+` then one or
more digits.  (Overflow of the 64-bit range is not modelled.) -/
def parseUsize? (s : String) : Option ℕ :=
  let cs :=
    match s.data with
    | '+' :: r => r
    | cs => cs
  if !cs.isEmpty && cs.all (fun c => c.isDigit) then some (digitsVal cs) else none

/-- The `"v"` branch of `Object::read`:
`Vector3::from_iterator(words.map(|w| str::parse::<f64>(w).unwrap()))`.
`from_iterator` pulls exactly three items from the lazy iterator (further
tokens are never parsed); it panics when the iterator yields fewer than
three items, and `unwrap()` panics on an unparsable token.  `none` models
the panic in either case. -/
def parseVertex : List String → Option (V3 ℚ)
  | t1 :: t2 :: t3 :: _ => do
    let a ← parseF64? t1
    let b ← parseF64? t2
    let c ← parseF64? t3
    pure ⟨a, b, c⟩
  | _ => none

/-- The `"f"` branch of `Object::read`:
`words.map(|w| str::parse::<usize>(w).unwrap()).collect()`, parsing every
remaining token as an index; `none` models the `unwrap()` panic on the
first unparsable token.  Any number of indices is accepted and no bounds
check is performed. -/
def parseFace : List String → Option (List ℕ)
  | [] => some []
  | t :: ts =>
    match parseUsize? t, parseFace ts with
    | some n, some ns => some (n :: ns)
    | _, _ => none

/-- One line of `Object::read`'s loop: dispatch on the first token; `v`
appends a vertex, `f` appends the parsed index list, anything else —
including a blank line — is ignored. -/
def readStep (acc : Object ℚ) (line : String) : Option (Object ℚ) :=
  match tokenize line with
  | [] => some acc
  | tag :: rest =>
    match tag with
    | "v" => (parseVertex rest).map fun p => { acc with points := acc.points ++ [p] }
    | "f" => (parseFace rest).map fun f => { acc with faces := acc.faces ++ [f] }
    | _ => some acc

/-- `Object::read` on the file's lines (I/O errors out of scope: the lines
are given).  `none` models a panic while parsing some line; `some` is the
`Ok(Object { points, faces })` result. -/
def readLines (lines : List String) : Option (Object ℚ) :=
  lines.foldlM readStep { points := [], faces := [] }

/-! ## Screen mapping and the per-face draw decision -/

/-- `get_point` from the source: viewport-maps vertex number `face`
(1-based) of the projected point list and pairs it with the flag
`points[face - 1][2] < 1.0`.  The source indexes `points[face - 1]` with a
`usize`: `face = 0` underflows and any out-of-range index panics; `none`
models that panic. -/
def get_point {α : Type} [LinearOrderedField α] (points : List (V3 α)) (face : ℕ)
    (window_size : α × α) : Option ((α × α) × Bool) :=
  if h : 1 ≤ face ∧ face ≤ points.length then
    let p := points.get ⟨face - 1, by omega⟩
    some ((((p.x + 1) / 2) * window_size.1, ((p.y + 1) / 2) * window_size.2),
      decide (p.z < 1))
  else none

/-- The body of the render loop for one face: fetch the three screen points
and flags for `face[0]`, `face[1]`, `face[2]` (a face with fewer than three
indices, a zero index or an out-of-range index panics — `none`); if all
three flags are set, skip the face (`continue`, zero draw calls, `some []`);
otherwise issue the three draw calls `p1→p2`, `p2→p3`, `p3→p1`, returned
as the list of drawn segments. -/
def drawFace {α : Type} [LinearOrderedField α] (points : List (V3 α)) (face : List ℕ)
    (window_size : α × α) : Option (List ((α × α) × (α × α))) :=
  match face.get? 0, face.get? 1, face.get? 2 with
  | some f1, some f2, some f3 =>
    match get_point points f1 window_size, get_point points f2 window_size,
        get_point points f3 window_size with
    | some (p1, c1), some (p2, c2), some (p3, c3) =>
      if c1 && c2 && c3 then some []
      else some [(p1, p2), (p2, p3), (p3, p1)]
    | _, _, _ => none
  | _, _, _ => none

/-! ## The transform matrices (`impl Object`, over `ℝ`)

The source's `Matrix4::new(..)` lists entries row by row; the matrices act
on column vectors by `Matrix4 * Vector4`, i.e. `Matrix.mulVec`. -/

open Real

/-- The 4×4 homogeneous matrices of the pipeline. -/
abbrev Mat4 := Matrix (Fin 4) (Fin 4) ℝ

/-- `Object::scale`. -/
def scale (s : ℝ) : Mat4 :=
  Matrix.of ![![s, 0, 0, 0], ![0, s, 0, 0], ![0, 0, s, 0], ![0, 0, 0, 1]]

/-- `Object::translate`. -/
def translate (p : V3 ℝ) : Mat4 :=
  Matrix.of ![![1, 0, 0, p.x], ![0, 1, 0, p.y], ![0, 0, 1, p.z], ![0, 0, 0, 1]]

/-- `Object::rotate_x`: the argument is in degrees and is converted by
`x * PI / 180.0`; entry layout exactly as in the source. -/
noncomputable def rotate_x (x : ℝ) : Mat4 :=
  let t := x * π / 180
  Matrix.of ![![1, 0, 0, 0], ![0, cos t, sin t, 0], ![0, -(sin t), cos t, 0],
    ![0, 0, 0, 1]]

/-- `Object::rotate_y`. -/
noncomputable def rotate_y (y : ℝ) : Mat4 :=
  let t := y * π / 180
  Matrix.of ![![cos t, 0, sin t, 0], ![0, 1, 0, 0], ![-(sin t), 0, cos t, 0],
    ![0, 0, 0, 1]]

/-- `Object::rotate_z`. -/
noncomputable def rotate_z (z : ℝ) : Mat4 :=
  let t := z * π / 180
  Matrix.of ![![cos t, sin t, 0, 0], ![-(sin t), cos t, 0, 0], ![0, 0, 1, 0],
    ![0, 0, 0, 1]]

/-- `Object::rotate`: `rotate_x(v[0]) * rotate_y(v[1]) * rotate_z(v[2])`. -/
noncomputable def rotate (v : V3 ℝ) : Mat4 :=
  rotate_x v.x * rotate_y v.y * rotate_z v.z

/-- `Object::perspective_transform_fov`. -/
noncomputable def perspective_transform_fov (fov aspect n f : ℝ) : Mat4 :=
  let e := 1 / tan (fov / 2)
  Matrix.of ![![e / aspect, 0, 0, 0], ![0, e, 0, 0],
    ![0, 0, (f + n) / (n - f), (2 * f * n) / (n - f)], ![0, 0, -1, 0]]

/-- `point.to_homogeneous()`: lift to a 4-vector with 4th component 1. -/
def toHomogeneous (p : V3 ℝ) : Fin 4 → ℝ := ![p.x, p.y, p.z, 1]

/-- The perspective divide: first three components divided by the 4th. -/
noncomputable def pdiv (v : Fin 4 → ℝ) : V3 ℝ := ⟨v 0 / v 3, v 1 / v 3, v 2 / v 3⟩

/-- `Point3::from_homogeneous(v)` (nalgebra): `none` exactly when the 4th
component is zero, otherwise the perspective divide.  The source calls
`.unwrap()` on this, so `none` is a panic. -/
noncomputable def fromHomogeneous? (v : Fin 4 → ℝ) : Option (V3 ℝ) :=
  if v 3 = 0 then none else some (pdiv v)

/-- `-1.0 * camera_position`: componentwise negation. -/
def negV (p : V3 ℝ) : V3 ℝ := ⟨-p.x, -p.y, -p.z⟩

/-- The model matrix built in `Object::project`:
`translate(object_position) * scale(1.0) * rotate_y(0.0) * rotate_z(0.0)`
with the hardcoded `object_position = (0, 0, 100)`. -/
noncomputable def world_from_object : Mat4 :=
  translate ⟨0, 0, 100⟩ * scale 1 * rotate_y 0 * rotate_z 0

/-- The projection matrix built in `Object::project`:
`perspective_transform_fov(PI/4, width/height, 1.0, 10000.0)`. -/
noncomputable def perspective_from_camera (window_size : ℝ × ℝ) : Mat4 :=
  perspective_transform_fov (π / 4) (window_size.1 / window_size.2) 1 10000

/-- The view matrix built in `Object::project`:
`rotate(camera_orientation) * translate(-1.0 * camera_position)`. -/
noncomputable def camera_from_world (camera_position camera_orientation : V3 ℝ) : Mat4 :=
  rotate camera_orientation * translate (negV camera_position)

/-- The per-vertex work of `Object::project`: transform by the combined
matrix, then `Point3::from_homogeneous(..).unwrap()`; collected over the
vertex list in order, with `none` modelling the panic when some vertex has
a zero homogeneous 4th component. -/
noncomputable def projectPoints (m : Mat4) : List (V3 ℝ) → Option (List (V3 ℝ))
  | [] => some []
  | p :: ps =>
    match fromHomogeneous? (m.mulVec (toHomogeneous p)), projectPoints m ps with
    | some q, some qs => some (q :: qs)
    | _, _ => none

/-- `Object::project`. -/
noncomputable def project (o : Object ℝ) (camera_position camera_orientation : V3 ℝ)
    (window_size : ℝ × ℝ) : Option (List (V3 ℝ)) :=
  projectPoints
    (perspective_from_camera window_size *
      camera_from_world camera_position camera_orientation * world_from_object)
    o.points

/-! ## The per-frame camera update (`main`) -/

/-- The mutable camera state of the event loop. -/
structure Camera where
  position : V3 ℝ
  orientation : V3 ℝ

/-- `f64::to_radians`. -/
noncomputable def toRadians (x : ℝ) : ℝ := x * (π / 180)

/-- The three camera-update statements of the event loop, in source order:
`camera_orientation.y -= dry;`
`camera_position.x += forward * camera_orientation.y.to_radians().sin();`
`camera_position.z -= forward * camera_orientation.y.to_radians().cos();`
(each later statement reads the state left by the earlier ones). -/
noncomputable def updateCamera (forward dry : ℝ) (c : Camera) : Camera :=
  let o1 := { c.orientation with y := c.orientation.y - dry }
  let p1 := { c.position with x := c.position.x + forward * Real.sin (toRadians o1.y) }
  let p2 := { p1 with z := p1.z - forward * Real.cos (toRadians o1.y) }
  { position := p2, orientation := o1 }

/-! ## Helper lemmas -/

/-- Applying a translation matrix to a homogeneous point adds the offset
componentwise and keeps the 4th component 1. -/
lemma translate_mulVec (d p : V3 ℝ) :
    (translate d).mulVec (toHomogeneous p) = toHomogeneous ⟨p.x + d.x, p.y + d.y, p.z + d.z⟩ := by
  funext i
  fin_cases i <;>
    simp [translate, toHomogeneous, Matrix.mulVec, Matrix.dotProduct, Fin.sum_univ_four]

lemma rotate_x_zero : rotate_x 0 = 1 := by
  funext i j
  fin_cases i <;> fin_cases j <;>
    simp [rotate_x, Matrix.one_apply, Matrix.vecHead, Matrix.vecTail]

lemma rotate_y_zero : rotate_y 0 = 1 := by
  funext i j
  fin_cases i <;> fin_cases j <;>
    simp [rotate_y, Matrix.one_apply, Matrix.vecHead, Matrix.vecTail]

lemma rotate_z_zero : rotate_z 0 = 1 := by
  funext i j
  fin_cases i <;> fin_cases j <;>
    simp [rotate_z, Matrix.one_apply, Matrix.vecHead, Matrix.vecTail]

lemma scale_one : scale 1 = 1 := by
  funext i j
  fin_cases i <;> fin_cases j <;>
    simp [scale, Matrix.one_apply, Matrix.vecHead, Matrix.vecTail]

lemma rotate_zero : rotate ⟨0, 0, 0⟩ = 1 := by
  simp [rotate, rotate_x_zero, rotate_y_zero, rotate_z_zero]

/-- With identity scale and zero rotations, the model matrix is the bare
translation to the hardcoded object position. -/
lemma world_from_object_eq : world_from_object = translate ⟨0, 0, 100⟩ := by
  simp [world_from_object, scale_one, rotate_y_zero, rotate_z_zero]

/-- The view matrix of the initial camera pose (origin, zero angles). -/
lemma camera_from_world_id : camera_from_world ⟨0, 0, 0⟩ ⟨0, 0, 0⟩ = 1 := by
  simp only [camera_from_world, rotate_zero, negV, neg_zero, one_mul]
  funext i j
  fin_cases i <;> fin_cases j <;>
    simp [translate, Matrix.one_apply, Matrix.vecHead, Matrix.vecTail]

/-- The 4th (homogeneous) output component of the projection matrix is the
negated camera-space z (the matrix's last row is `(0, 0, -1, 0)`). -/
lemma perspective_mulVec_w (ws : ℝ × ℝ) (v : Fin 4 → ℝ) :
    ((perspective_from_camera ws).mulVec v) 3 = -(v 2) := by
  simp [perspective_from_camera, perspective_transform_fov, Matrix.mulVec,
    Matrix.dotProduct, Fin.sum_univ_four, Matrix.vecHead, Matrix.vecTail]

/-- For the initial camera pose, the homogeneous divisor of a vertex `p` is
`-(p.z + 100)`: the negated world z after placing the object at z = 100. -/
lemma total_w (p : V3 ℝ) (ws : ℝ × ℝ) :
    ((perspective_from_camera ws * camera_from_world ⟨0, 0, 0⟩ ⟨0, 0, 0⟩ *
        world_from_object).mulVec (toHomogeneous p)) 3 = -(p.z + 100) := by
  rw [camera_from_world_id, mul_one, world_from_object_eq, ← Matrix.mulVec_mulVec,
    translate_mulVec, perspective_mulVec_w]
  simp [toHomogeneous, Matrix.vecHead, Matrix.vecTail]

/-- When every vertex has a nonzero homogeneous divisor, the projection of
a vertex list succeeds and is the elementwise perspective divide. -/
lemma projectPoints_eq_map (m : Mat4) (l : List (V3 ℝ))
    (h : ∀ p ∈ l, (m.mulVec (toHomogeneous p)) 3 ≠ 0) :
    projectPoints m l = some (l.map fun p => pdiv (m.mulVec (toHomogeneous p))) := by
  induction l with
  | nil => rfl
  | cons p ps ih =>
    have hp := h p (List.mem_cons_self p ps)
    have hps := ih fun q hq => h q (List.mem_cons_of_mem p hq)
    simp [projectPoints, fromHomogeneous?, hp, hps]

/-- A successful 1-based lookup determines `get_point`'s output: the
viewport-mapped screen coordinates and the flag `z < 1`. -/
lemma get_point_eq {α : Type} [LinearOrderedField α] (points : List (V3 α)) (f : ℕ)
    (q : V3 α) (ws : α × α) (g : 1 ≤ f) (h : points.get? (f - 1) = some q) :
    get_point points f ws =
      some ((((q.x + 1) / 2) * ws.1, ((q.y + 1) / 2) * ws.2), decide (q.z < 1)) := by
  obtain ⟨hlt, hget⟩ := List.get?_eq_some.mp h
  rw [get_point, dif_pos ⟨g, by omega⟩]
  simp only [List.get_eq_getElem] at hget
  simp only [List.get_eq_getElem, hget]

/-- If some element of the list makes the step fail regardless of the
accumulated state, the whole monadic fold over `Option` fails. -/
lemma foldlM_eq_none {β γ : Type} (f : γ → β → Option γ) (xs : List β) (x : β)
    (hx : x ∈ xs) (h : ∀ acc, f acc x = none) :
    ∀ init, xs.foldlM f init = none := by
  induction xs with
  | nil => cases hx
  | cons a l ih =>
    intro init
    rcases List.mem_cons.mp hx with rfl | hmem
    · simp [h init]
    · cases hfa : f init a with
      | none => simp [hfa]
      | some b => simp [hfa, ih hmem b]

/-! ## The claims -/

/-- C1 (counterexample): the spec's rule "skip all three edges iff all
three vertices are clipped, where clipped means projected z ≥ 1.0" is
false for the code.  Here all three vertices have projected z = 2 ≥ 1 —
clipped in the spec's convention, so the spec demands zero draw calls —
yet the face produces exactly three drawn segments, because the code's
flag is `z < 1.0` and it skips only when all three flags are set. -/
theorem drawFace_all_clipped_cex :
    (1 : ℚ) ≤ (V3.mk 0 0 2).z ∧
    (drawFace [V3.mk (0 : ℚ) 0 2, V3.mk 0 0 2, V3.mk 0 0 2] [1, 2, 3]
        (1920, 1080)).map List.length = some 3 := by decide

/-- C1 (amended): for a triangular face whose three 1-based indices are in
range, the render loop skips drawing all three edges iff all three
vertices have projected z < 1.0 (the code's per-vertex flag, the inverse
of the spec's stated convention); whenever at least one vertex has
z ≥ 1.0, exactly the three edges p1→p2, p2→p3, p3→p1 are drawn, at the
viewport-mapped screen coordinates, even if one or two endpoints have the
flag set. -/
theorem drawFace_skip_iff {α : Type} [LinearOrderedField α]
    (points : List (V3 α)) (f1 f2 f3 : ℕ) (r : List ℕ) (ws : α × α)
    (q1 q2 q3 : V3 α)
    (g1 : 1 ≤ f1) (g2 : 1 ≤ f2) (g3 : 1 ≤ f3)
    (h1 : points.get? (f1 - 1) = some q1)
    (h2 : points.get? (f2 - 1) = some q2)
    (h3 : points.get? (f3 - 1) = some q3) :
    drawFace points (f1 :: f2 :: f3 :: r) ws =
      if q1.z < 1 ∧ q2.z < 1 ∧ q3.z < 1 then some []
      else
        some [((((q1.x + 1) / 2) * ws.1, ((q1.y + 1) / 2) * ws.2),
               (((q2.x + 1) / 2) * ws.1, ((q2.y + 1) / 2) * ws.2)),
              ((((q2.x + 1) / 2) * ws.1, ((q2.y + 1) / 2) * ws.2),
               (((q3.x + 1) / 2) * ws.1, ((q3.y + 1) / 2) * ws.2)),
              ((((q3.x + 1) / 2) * ws.1, ((q3.y + 1) / 2) * ws.2),
               (((q1.x + 1) / 2) * ws.1, ((q1.y + 1) / 2) * ws.2))] := by
  rw [drawFace]
  simp only [List.get?]
  rw [get_point_eq points f1 q1 ws g1 h1, get_point_eq points f2 q2 ws g2 h2,
    get_point_eq points f3 q3 ws g3 h3]
  by_cases hc : q1.z < 1 ∧ q2.z < 1 ∧ q3.z < 1
  · simp [hc, hc.1, hc.2.1, hc.2.2]
  · simp only [if_neg hc]
    simp only [Bool.and_eq_true, decide_eq_true_eq]
    rw [if_neg]
    intro hcon
    exact hc ⟨hcon.1.1, hcon.1.2, hcon.2⟩

/-- C1 (witness): a face whose three vertices all have z = 0 < 1 is
skipped — zero draw calls. -/
theorem drawFace_skip_iff_witness :
    drawFace ([⟨0, 0, 0⟩, ⟨0, 0, 0⟩, ⟨0, 0, 0⟩] : List (V3 ℚ)) [1, 2, 3] (1920, 1080) =
      some [] := by
  have H := drawFace_skip_iff ([⟨0, 0, 0⟩, ⟨0, 0, 0⟩, ⟨0, 0, 0⟩] : List (V3 ℚ))
    1 2 3 [] (1920, 1080) ⟨0, 0, 0⟩ ⟨0, 0, 0⟩ ⟨0, 0, 0⟩
    (by decide) (by decide) (by decide) (by decide) (by decide) (by decide)
  rw [H, if_pos]
  norm_num

/-- C2 (counterexample): on a file containing the line `v 1.0 abc 3.0`
the loader does not return a parse-error value — it panics (the numeric
parse is followed by `unwrap()`, and the function's error type covers only
I/O errors), refuting the claim that load "returns a ParseError result"
and does not abort the process. -/
theorem read_bad_token_cex : readLines ["v 1.0 abc 3.0"] = none := by decide

/-- C2 (amended): for every input whose lines include a `v` line among
whose first three coordinate tokens one is unparsable (or a `f` line with
an unparsable index token), the load panics — it produces no mesh at all,
so in particular it does not substitute a default value; but the failure
is a process abort, not a returned ParseError value. -/
theorem read_panics_on_bad_numeric (lines : List String) (line : String) (ts : List String)
    (hmem : line ∈ lines)
    (hbad : (tokenize line = "v" :: ts ∧ parseVertex ts = none) ∨
        (tokenize line = "f" :: ts ∧ parseFace ts = none)) :
    readLines lines = none := by
  refine foldlM_eq_none readStep lines line hmem (fun acc => ?_) _
  rcases hbad with ⟨htok, hb⟩ | ⟨htok, hb⟩ <;> simp [readStep, htok, hb]

/-- C2 (witness): a file whose first line is well-formed and whose second
line carries the unparsable token `abc` panics during load. -/
theorem read_panics_on_bad_numeric_witness :
    readLines ["v 1 2 3", "v 1.0 abc 3.0"] = none :=
  read_panics_on_bad_numeric ["v 1 2 3", "v 1.0 abc 3.0"] "v 1.0 abc 3.0"
    ["1.0", "abc", "3.0"] (by decide) (Or.inl ⟨by decide, by decide⟩)

/-- C3 (counterexample): a file with one vertex and the face `f 2 2 2` is
accepted at load time with the out-of-range index stored as-is (refuting
"violating input is rejected as an error at load time"), and drawing that
face then panics on the out-of-bounds index (refuting "out-of-range
indices never cause a runtime panic during projection or drawing"). -/
theorem index_bounds_cex :
    (readLines ["v 0 0 0", "f 2 2 2"]).map Object.faces = some [[2, 2, 2]] ∧
    drawFace ([⟨0, 0, 0⟩] : List (V3 ℚ)) [2, 2, 2] (1920, 1080) = none := by decide

/-- C3 (amended): the loader performs no bounds check — a face index
outside `[1, len(points)]` is stored unchanged — and any such index (zero
underflows the `usize` subtraction, a too-large one indexes out of bounds)
makes the per-vertex screen lookup panic at draw time. -/
theorem index_bounds_unchecked :
    (readLines ["v 0 0 0", "f 2 2 2"]).map Object.faces = some [[2, 2, 2]] ∧
    ∀ (pts : List (V3 ℝ)) (face : ℕ) (ws : ℝ × ℝ),
      face = 0 ∨ pts.length < face → get_point pts face ws = none := by
  constructor
  · decide
  · intro pts face ws hbad
    rw [get_point, dif_neg]
    omega

/-- C3 (witness): index 2 into a 1-point list panics at draw time. -/
theorem index_bounds_unchecked_witness :
    get_point ([⟨0, 0, 0⟩] : List (V3 ℝ)) 2 (1920, 1080) = none :=
  index_bounds_unchecked.2 [⟨0, 0, 0⟩] 2 (1920, 1080) (Or.inr (by simp))

/-- C4: the view matrix `rotate(o) * translate(-t)` applied to the
homogeneous lift of a world point `p` equals the rotation applied to the
homogeneous lift of `p - t` — translate first, then rotate, i.e.
`R * (p - t)` and not `R * p - t`. -/
theorem camera_from_world_mulVec (t o p : V3 ℝ) :
    (rotate o * translate (negV t)).mulVec (toHomogeneous p) =
      (rotate o).mulVec (toHomogeneous ⟨p.x - t.x, p.y - t.y, p.z - t.z⟩) := by
  rw [← Matrix.mulVec_mulVec, translate_mulVec]
  simp [negV, sub_eq_add_neg]

/-- C5 (counterexample): the claimed factorisation
`Rotate(v) = RotateZ(v.z) * RotateY(v.y) * RotateX(v.x)` (X applied first)
is false for the code: at `v = (90°, 90°, 0°)` the code's matrix
`rotate_x * rotate_y * rotate_z` differs from the claimed product (their
(0,1) entries are 0 and -1 respectively). -/
theorem rotate_order_cex :
    rotate ⟨90, 90, 0⟩ ≠ rotate_z 0 * rotate_y 90 * rotate_x 90 := by
  intro h
  have h2 := congrFun (congrFun h 0) 1
  have e90 : (90 : ℝ) * π / 180 = π / 2 := by ring
  simp [rotate, rotate_x, rotate_y, rotate_z_zero, Matrix.mul_apply, Fin.sum_univ_four, e90,
    Real.cos_pi_div_two, Real.sin_pi_div_two, Matrix.one_apply, Matrix.vecHead,
    Matrix.vecTail] at h2

/-- C5 (amended): the code builds the view rotation as the matrix product
`rotate_x(v.x) * rotate_y(v.y) * rotate_z(v.z)`; acting on a column
vector, the Z rotation is applied first, then Y, then X — the reverse of
the spec's "X then Y then Z" application order. -/
theorem rotate_applies_z_then_y_then_x (v : V3 ℝ) (w : Fin 4 → ℝ) :
    (rotate v).mulVec w =
      (rotate_x v.x).mulVec ((rotate_y v.y).mulVec ((rotate_z v.z).mulVec w)) := by
  simp [rotate, Matrix.mulVec_mulVec, Matrix.mul_assoc]

/-- C6: the per-frame camera update first performs
`orientation.y -= dry`, then uses the updated yaw to move:
`position.x += forward * sin(radians(yaw))`,
`position.z -= forward * cos(radians(yaw))`; every other component of the
pose is left unchanged, and the update is total (never fails). -/
theorem updateCamera_spec (forward dry : ℝ) (c : Camera) :
    updateCamera forward dry c =
      { position := ⟨c.position.x + forward * Real.sin ((c.orientation.y - dry) * (π / 180)),
                     c.position.y,
                     c.position.z - forward * Real.cos ((c.orientation.y - dry) * (π / 180))⟩,
        orientation := ⟨c.orientation.x, c.orientation.y - dry, c.orientation.z⟩ } := rfl

/-- C7 (counterexample): `project` does not return one output per input
vertex for every mesh and camera pose: a mesh whose single vertex lands on
the camera's eye plane (homogeneous 4th component zero — here object-space
z = -100, cancelling the object offset) makes `project` panic on
`from_homogeneous(..).unwrap()`, producing no output list at all. -/
theorem project_zero_w_cex :
    project ⟨[⟨0, 0, -100⟩], []⟩ ⟨0, 0, 0⟩ ⟨0, 0, 0⟩ (1920, 1080) = none := by
  have hw : ((perspective_from_camera (1920, 1080) *
      camera_from_world ⟨0, 0, 0⟩ ⟨0, 0, 0⟩ * world_from_object).mulVec
        (toHomogeneous ⟨0, 0, -100⟩)) 3 = 0 := by
    rw [total_w]
    norm_num
  simp [project, projectPoints, fromHomogeneous?, hw]

/-- C7 (amended): provided every vertex's transformed homogeneous 4th
component is nonzero, `project` returns exactly one output per input
vertex, in the same order, equal to the perspective divide of
`clip_from_camera * camera_from_world * world_from_object` applied to the
vertex's homogeneous lift; as a function of its inputs it is pure and
deterministic and mutates neither mesh nor camera. -/
theorem project_spec (o : Object ℝ) (cp co : V3 ℝ) (ws : ℝ × ℝ)
    (h : ∀ p ∈ o.points,
      ((perspective_from_camera ws * camera_from_world cp co * world_from_object).mulVec
          (toHomogeneous p)) 3 ≠ 0) :
    project o cp co ws =
      some (o.points.map fun p =>
        pdiv ((perspective_from_camera ws * camera_from_world cp co *
            world_from_object).mulVec (toHomogeneous p))) :=
  projectPoints_eq_map _ _ h

/-- C7 (witness): a one-vertex mesh at the object-space origin with the
initial camera pose projects successfully to a one-point list. -/
theorem project_spec_witness :
    project ⟨[⟨0, 0, 0⟩], []⟩ ⟨0, 0, 0⟩ ⟨0, 0, 0⟩ (1920, 1080) =
      some [pdiv ((perspective_from_camera (1920, 1080) *
          camera_from_world ⟨0, 0, 0⟩ ⟨0, 0, 0⟩ * world_from_object).mulVec
            (toHomogeneous ⟨0, 0, 0⟩))] := by
  have H := project_spec ⟨[⟨0, 0, 0⟩], []⟩ ⟨0, 0, 0⟩ ⟨0, 0, 0⟩ (1920, 1080) ?_
  · rw [H]
    simp
  · intro p hp
    simp only [List.mem_singleton] at hp
    subst hp
    rw [total_w]
    norm_num

/-- C9: the per-vertex homogeneous-to-point conversion fails (no defined
result, hence a panic under the source's `unwrap()`) exactly when the 4th
component is zero; with a nonzero 4th component the perspective divide
succeeds and the error branch is unreachable. -/
theorem fromHomogeneous_zero_iff (v : Fin 4 → ℝ) :
    (fromHomogeneous? v = none ↔ v 3 = 0) ∧
    (v 3 ≠ 0 → fromHomogeneous? v = some (pdiv v)) := by
  constructor
  · constructor
    · intro h
      by_contra hne
      simp [fromHomogeneous?, hne] at h
    · intro h
      simp [fromHomogeneous?, h]
  · intro h
    simp [fromHomogeneous?, h]

/-- C9 (witness): a vector with 4th component 0 yields no point; one with
4th component 2 divides through to a finite point. -/
theorem fromHomogeneous_zero_iff_witness :
    fromHomogeneous? ![1, 2, 3, 0] = none ∧
    fromHomogeneous? ![2, 4, 6, 2] = some ⟨1, 2, 3⟩ := by
  constructor
  · exact (fromHomogeneous_zero_iff ![1, 2, 3, 0]).1.mpr rfl
  · have H := (fromHomogeneous_zero_iff ![2, 4, 6, 2]).2 (by norm_num)
    rw [H]
    norm_num [pdiv]

/-- C8: `get_point` computes `screen.x = (normalized.x + 1) / 2 * width`
and `screen.y = (normalized.y + 1) / 2 * height`; consequently, for any
two viewport sizes with nonzero dimensions the ratios `screen.x / width`
and `screen.y / height` of a fixed normalized point coincide — screen
coordinates scale exactly linearly with the viewport dimensions. -/
theorem get_point_viewport {α : Type} [LinearOrderedField α]
    (points : List (V3 α)) (f : ℕ) (q : V3 α)
    (g : 1 ≤ f) (h : points.get? (f - 1) = some q) :
    (∀ ws : α × α, get_point points f ws =
        some ((((q.x + 1) / 2) * ws.1, ((q.y + 1) / 2) * ws.2), decide (q.z < 1))) ∧
    (∀ w1 w2 h1 h2 : α, w1 ≠ 0 → w2 ≠ 0 → h1 ≠ 0 → h2 ≠ 0 →
        (((q.x + 1) / 2) * w1) / w1 = (((q.x + 1) / 2) * w2) / w2 ∧
        (((q.y + 1) / 2) * h1) / h1 = (((q.y + 1) / 2) * h2) / h2) := by
  constructor
  · intro ws
    exact get_point_eq points f q ws g h
  · intro w1 w2 hh1 hh2 hw1 hw2 hhh1 hhh2
    constructor <;> rw [mul_div_assoc, mul_div_assoc] <;> rw [div_self, div_self] <;>
      assumption

/-- C8 (witness): the normalized point (0, 1, 3) maps to (50, 50) on a
100×50 viewport, and its x ratio agrees between widths 100 and 200. -/
theorem get_point_viewport_witness :
    get_point ([⟨0, 1, 3⟩] : List (V3 ℚ)) 1 (100, 50) = some ((50, 50), false) ∧
    ((((0 : ℚ) + 1) / 2) * 100) / 100 = ((((0 : ℚ) + 1) / 2) * 200) / 200 := by
  have H := get_point_viewport ([⟨0, 1, 3⟩] : List (V3 ℚ)) 1 ⟨0, 1, 3⟩ (by decide) (by decide)
  constructor
  · rw [H.1 (100, 50)]
    norm_num
  · exact ((H.2 100 200 50 50 (by norm_num) (by norm_num) (by norm_num) (by norm_num))).1

/-- C10: a file whose second `v` line has only two coordinate tokens makes
the load panic — `Vector3::from_iterator` demands three items from the
token iterator — while the same file truncated before that line loads
successfully; no error value is returned and the line is not skipped. -/
theorem read_short_vertex_line_panics :
    readLines ["v 1 2 3", "v 1.0 2.0"] = none ∧
    (readLines ["v 1 2 3"]).isSome = true := by decide

end Rather3d
